import Mathlib

/-!
Shallow embedding of the verification engine of
`src/implementations/containerd-shim` (verify.rs, main.rs, bundle.rs).

Bytes are modelled as `List Nat` (each element a byte value), machine words
as `Nat` reduced modulo `2 ^ 32` where the Rust code relies on `u32`
wrapping.  External library primitives (the `ed25519_dalek` signature check
and base64 decoding) are threaded through as explicit function parameters;
SHA-256 and hex decoding are implemented concretely, following the `sha2`
and `hex` crates' documented behaviour, since the verifier's results depend
on their exact outputs.  Filesystem effects (the verification cache and the
audit log) are modelled by explicit state passing on an `FsState` record.
-/

namespace VCS

/-- Truncate to 32 bits, as `u32` wrapping arithmetic does. -/
def w32 (x : Nat) : Nat := x % 4294967296

/-- 32-bit right rotation. -/
def rotr32 (n x : Nat) : Nat := w32 ((x >>> n) ||| (x <<< (32 - n)))

/-- SHA-256 big sigma-0. -/
def bigSigma0 (x : Nat) : Nat := (rotr32 2 x) ^^^ (rotr32 13 x) ^^^ (rotr32 22 x)

/-- SHA-256 big sigma-1. -/
def bigSigma1 (x : Nat) : Nat := (rotr32 6 x) ^^^ (rotr32 11 x) ^^^ (rotr32 25 x)

/-- SHA-256 small sigma-0. -/
def smallSigma0 (x : Nat) : Nat := (rotr32 7 x) ^^^ (rotr32 18 x) ^^^ (x >>> 3)

/-- SHA-256 small sigma-1. -/
def smallSigma1 (x : Nat) : Nat := (rotr32 17 x) ^^^ (rotr32 19 x) ^^^ (x >>> 10)

/-- The 64 SHA-256 round constants (FIPS 180-4), as decimal values. -/
def sha256K : List Nat :=
  [1116352408, 1899447441, 3049323471, 3921009573, 961987163, 1508970993,
   2453635748, 2870763221, 3624381080, 310598401, 607225278, 1426881987,
   1925078388, 2162078206, 2614888103, 3248222580, 3835390401, 4022224774,
   264347078, 604807628, 770255983, 1249150122, 1555081692, 1996064986,
   2554220882, 2821834349, 2952996808, 3210313671, 3336571891, 3584528711,
   113926993, 338241895, 666307205, 773529912, 1294757372, 1396182291,
   1695183700, 1986661051, 2177026350, 2456956037, 2730485921, 2820302411,
   3259730800, 3345764771, 3516065817, 3600352804, 4094571909, 275423344,
   430227734, 506948616, 659060556, 883997877, 958139571, 1322822218,
   1537002063, 1747873779, 1955562222, 2024104815, 2227730452, 2361852424,
   2428436474, 2756734187, 3204031479, 3329325298]

/-- The eight working variables of the SHA-256 compression function. -/
structure Hash8 where
  a : Nat
  b : Nat
  c : Nat
  d : Nat
  e : Nat
  f : Nat
  g : Nat
  h : Nat
deriving DecidableEq, Repr

/-- SHA-256 initial hash value (FIPS 180-4), as decimal values. -/
def sha256Init : Hash8 :=
  ⟨1779033703, 3144134277, 1013904242, 2773480762,
   1359893119, 2600822924, 528734635, 1541459225⟩

/-- Group bytes into big-endian 32-bit words. -/
def bytesToWords : List Nat → List Nat
  | b0 :: b1 :: b2 :: b3 :: rest => (((b0 * 256 + b1) * 256 + b2) * 256 + b3) :: bytesToWords rest
  | _ => []

/-- The next word of the SHA-256 message schedule, from the words so far. -/
def scheduleNext (w : List Nat) : Nat :=
  let g := fun (i : Nat) => w.getD (w.length - i) 0
  w32 (smallSigma1 (g 2) + g 7 + smallSigma0 (g 15) + g 16)

/-- Extend the message schedule by `n` further words. -/
def extendSchedule : Nat → List Nat → List Nat
  | 0, w => w
  | n + 1, w => extendSchedule n (w ++ [scheduleNext w])

/-- One round of the SHA-256 compression function. -/
def compressStep (st : Hash8) (kw : Nat × Nat) : Hash8 :=
  let ch := (st.e &&& st.f) ^^^ ((st.e ^^^ 0xffffffff) &&& st.g)
  let maj := (st.a &&& st.b) ^^^ (st.a &&& st.c) ^^^ (st.b &&& st.c)
  let t1 := w32 (st.h + bigSigma1 st.e + ch + kw.1 + kw.2)
  let t2 := w32 (bigSigma0 st.a + maj)
  { a := w32 (t1 + t2), b := st.a, c := st.b, d := st.c,
    e := w32 (st.d + t1), f := st.e, g := st.f, h := st.g }

/-- Process a single 64-byte block. -/
def processBlock (st : Hash8) (block : List Nat) : Hash8 :=
  let w := extendSchedule 48 (bytesToWords block)
  let r := (sha256K.zip w).foldl compressStep st
  { a := w32 (st.a + r.a), b := w32 (st.b + r.b), c := w32 (st.c + r.c), d := w32 (st.d + r.d),
    e := w32 (st.e + r.e), f := w32 (st.f + r.f), g := w32 (st.g + r.g), h := w32 (st.h + r.h) }

/-- Split a byte list into 64-byte blocks, discarding a short remainder
(the padded message is always a multiple of 64 bytes).  The fuel argument
bounds the recursion depth structurally; `toBlocks` supplies enough. -/
def toBlocksF : Nat → List Nat → List (List Nat)
  | 0, _ => []
  | fuel + 1, l => if l.length < 64 then [] else (l.take 64) :: toBlocksF fuel (l.drop 64)

/-- Split a byte list into 64-byte blocks. -/
def toBlocks (l : List Nat) : List (List Nat) := toBlocksF l.length l

/-- A `Nat` as 8 big-endian bytes. -/
def u64be (x : Nat) : List Nat :=
  [(x >>> 56) &&& 255, (x >>> 48) &&& 255, (x >>> 40) &&& 255, (x >>> 32) &&& 255,
   (x >>> 24) &&& 255, (x >>> 16) &&& 255, (x >>> 8) &&& 255, x &&& 255]

/-- A 32-bit word as 4 big-endian bytes. -/
def wordBytes (x : Nat) : List Nat :=
  [(x >>> 24) &&& 255, (x >>> 16) &&& 255, (x >>> 8) &&& 255, x &&& 255]

/-- SHA-256 padding: a `0x80` byte, zeros to 56 mod 64, then the bit length. -/
def sha256Pad (msg : List Nat) : List Nat :=
  let padLen := (119 - msg.length % 64) % 64
  msg ++ 0x80 :: (List.replicate padLen 0 ++ u64be (8 * msg.length))

/-- SHA-256 of a byte string, as 32 bytes. -/
def sha256 (msg : List Nat) : List Nat :=
  let st := (toBlocks (sha256Pad msg)).foldl processBlock sha256Init
  wordBytes st.a ++ wordBytes st.b ++ wordBytes st.c ++ wordBytes st.d ++
  wordBytes st.e ++ wordBytes st.f ++ wordBytes st.g ++ wordBytes st.h

/-- Lowercase hex digit for a nibble. -/
def hexChar (n : Nat) : Char := if n < 10 then Char.ofNat (48 + n) else Char.ofNat (87 + n)

/-- Lowercase hex encoding of a byte string. -/
def bytesToHex (l : List Nat) : String :=
  String.mk (l.foldr (fun b acc => hexChar (b / 16) :: hexChar (b % 16) :: acc) [])

/-- Value of a hex digit character, if it is one. -/
def hexDigitVal (c : Char) : Option Nat :=
  if '0' ≤ c ∧ c ≤ '9' then some (c.toNat - 48)
  else if 'a' ≤ c ∧ c ≤ 'f' then some (c.toNat - 87)
  else if 'A' ≤ c ∧ c ≤ 'F' then some (c.toNat - 55)
  else none

/-- Decode a character list as hex pairs: even length, all hex digits. -/
def hexPairs : List Char → Option (List Nat)
  | [] => some []
  | [_] => none
  | c1 :: c2 :: rest => do
      let hi ← hexDigitVal c1
      let lo ← hexDigitVal c2
      let r ← hexPairs rest
      pure ((16 * hi + lo) :: r)

/-- `decode_hex` of verify.rs: `hex::decode` semantics. -/
def decode_hex (s : String) : Option (List Nat) := hexPairs s.data

/-- UTF-8 encoding of one character. -/
def charUTF8 (c : Char) : List Nat :=
  let n := c.toNat
  if n < 0x80 then [n]
  else if n < 0x800 then [0xC0 ||| (n >>> 6), 0x80 ||| (n &&& 0x3F)]
  else if n < 0x10000 then
    [0xE0 ||| (n >>> 12), 0x80 ||| ((n >>> 6) &&& 0x3F), 0x80 ||| (n &&& 0x3F)]
  else
    [0xF0 ||| (n >>> 18), 0x80 ||| ((n >>> 12) &&& 0x3F),
     0x80 ||| ((n >>> 6) &&& 0x3F), 0x80 ||| (n &&& 0x3F)]

/-- UTF-8 bytes of a string, as Rust's `str::as_bytes` exposes them. -/
def strBytes (s : String) : List Nat := (s.data.map charUTF8).flatten

/-- One error constructor per distinct failure site of verify.rs. -/
inductive VErr where
  | missingAttestation
  | malformedBundle
  | subjectMismatch (expected found : String)
  | missingEnvelope
  | unknownKey (keyid : String)
  | expiredKey (keyid : String)
  | keyNotYetValid (keyid : String)
  | invalidSignature
  | insufficientLogCoverage (count : Nat)
  | logKeyUnknown (logId : String)
  | setBadBase64
  | setTooShort (len : Nat)
  | setBadKeyLength
  | setSignatureInvalid
  | setFutureTimestamp (secs : Nat)
  | merkleIndexOutOfRange (logIndex treeSize : Nat)
  | merkleBadHex
  | merkleEmptyPath
  | merkleRootMismatch
  | noThresholdGroup
  | thresholdNotMet (count k n : Nat)
  | cacheTimeError
deriving DecidableEq, Repr

/-- `VerificationMode` of verify.rs. -/
inductive VerificationMode where
  | Strict
  | Permissive
  | Audit
deriving DecidableEq, Repr

/-- `DSSESignature` of verify.rs. -/
structure DSSESignature where
  keyid : String
  sig : List Nat
deriving DecidableEq, Repr

/-- `DSSEEnvelope` of verify.rs. -/
structure DSSEEnvelope where
  payload_type : String
  payload : List Nat
  signatures : List DSSESignature
deriving DecidableEq, Repr

/-- `DigestSet` of verify.rs. -/
structure DigestSet where
  sha256 : String
deriving DecidableEq, Repr

/-- `Subject` of verify.rs. -/
structure Subject where
  digest : DigestSet
deriving DecidableEq, Repr

/-- `Attestation` of verify.rs. -/
structure Attestation where
  subject : List Subject
  predicate_type : String
  envelope : Option DSSEEnvelope
deriving DecidableEq, Repr

/-- `MerkleProof` of verify.rs. -/
structure MerkleProof where
  log_index : Nat
  root_hash : String
  tree_size : Nat
  hashes : List String
deriving DecidableEq, Repr

/-- `LogEntry` of verify.rs. -/
structure LogEntry where
  log_id : String
  signed_entry_timestamp : String
  inclusion_proof : Option MerkleProof
deriving DecidableEq, Repr

/-- `AttestationBundle` of verify.rs. -/
structure AttestationBundle where
  media_type : String
  version : String
  attestations : List Attestation
  log_entries : List LogEntry
deriving DecidableEq, Repr

/-- `TrustedKey` of verify.rs; timestamps are seconds since the epoch. -/
structure TrustedKey where
  keyid : String
  key_bytes : List Nat
  algorithm : String
  valid_from : Option Nat
  valid_until : Option Nat
  trust_level : String
deriving DecidableEq, Repr

/-- `ThresholdGroup` of verify.rs. -/
structure ThresholdGroup where
  name : String
  k : Nat
  n : Nat
  member_keyids : List String
deriving DecidableEq, Repr

/-- `TrustStore` of verify.rs. -/
structure TrustStore where
  keys : List TrustedKey
  threshold_groups : List ThresholdGroup
deriving DecidableEq, Repr

/-- `TrustStore::get_key`: first key with the given keyid. -/
def TrustStore.get_key (ts : TrustStore) (keyid : String) : Option TrustedKey :=
  ts.keys.find? (fun k => k.keyid == keyid)

/-- `TrustStore::get_threshold_group`: first group with the given name. -/
def TrustStore.get_threshold_group (ts : TrustStore) (name : String) : Option ThresholdGroup :=
  ts.threshold_groups.find? (fun g => g.name == name)

/-- `trust_store_version`: first 8 hex chars of the SHA-256 over the
concatenated UTF-8 bytes of all keyids, in store order. -/
def trust_store_version (ts : TrustStore) : String :=
  (bytesToHex (sha256 (ts.keys.foldl (fun acc k => acc ++ strBytes k.keyid) []))).take 8

/-- Outcome of the external bundle layer's parse of the attestation JSON:
the file may be absent, fail JSON decoding, or produce a bundle value. -/
inductive AttestationFile where
  | missing
  | unparseable
  | parsed (ab : AttestationBundle)
deriving DecidableEq, Repr

/-- The fields of `CtpBundle` the verifier reads (manifest identity plus the
attestation-bundle file's parse outcome). -/
structure CtpBundle where
  name : String
  version : String
  image_digest : String
  attestation_file : AttestationFile
deriving DecidableEq, Repr

/-- `parse_attestation_bundle` of verify.rs: missing file, JSON decode
failure, then the media-type gate. -/
def parse_attestation_bundle (b : CtpBundle) : Except VErr AttestationBundle :=
  match b.attestation_file with
  | .missing => .error .missingAttestation
  | .unparseable => .error .malformedBundle
  | .parsed ab =>
      if ab.media_type ≠ "application/vnd.verified-container.bundle+json" then
        .error .malformedBundle
      else .ok ab

/-- Inner loop of `verify_subject_match`: check every subject of one
attestation against the manifest digest. -/
def checkSubjects (expected : String) : List Subject → Except VErr Unit
  | [] => .ok ()
  | s :: rest =>
      let subject_digest := "sha256:" ++ s.digest.sha256
      if subject_digest ≠ expected then .error (.subjectMismatch expected subject_digest)
      else checkSubjects expected rest

/-- Outer loop of `verify_subject_match` over the attestations. -/
def checkAttSubjects (expected : String) : List Attestation → Except VErr Unit
  | [] => .ok ()
  | a :: rest => do
      checkSubjects expected a.subject
      checkAttSubjects expected rest

/-- `verify_subject_match` of verify.rs. -/
def verify_subject_match (b : CtpBundle) (ab : AttestationBundle) : Except VErr Unit :=
  checkAttSubjects b.image_digest ab.attestations

/-- `verify_ed25519_signature` of verify.rs: the two length gates, then the
`ed25519_dalek` verification, supplied as the oracle `ed` (key, message,
signature). -/
def verify_ed25519_signature (ed : List Nat → List Nat → List Nat → Bool)
    (payload signature public_key_bytes : List Nat) : Except VErr Unit :=
  if public_key_bytes.length ≠ 32 then .error .invalidSignature
  else if signature.length ≠ 64 then .error .invalidSignature
  else if ed public_key_bytes payload signature then .ok ()
  else .error .invalidSignature

/-- Body of the signature loop of `verify_signatures` for one signature:
key lookup, validity window (`valid_until` first, as in the source), then
Ed25519 verification. -/
def checkOneSignature (ed : List Nat → List Nat → List Nat → Bool) (now : Nat)
    (ts : TrustStore) (payload : List Nat) (s : DSSESignature) : Except VErr Unit := do
  match ts.get_key s.keyid with
  | none => throw (.unknownKey s.keyid)
  | some public_key => do
      match public_key.valid_until with
      | some valid_until => if now > valid_until then throw (.expiredKey s.keyid) else pure ()
      | none => pure ()
      match public_key.valid_from with
      | some valid_from => if now < valid_from then throw (.keyNotYetValid s.keyid) else pure ()
      | none => pure ()
      verify_ed25519_signature ed payload s.sig public_key.key_bytes

/-- Signature loop of `verify_signatures` over one envelope. -/
def checkSignatures (ed : List Nat → List Nat → List Nat → Bool) (now : Nat)
    (ts : TrustStore) (payload : List Nat) : List DSSESignature → Except VErr Unit
  | [] => .ok ()
  | s :: rest => do
      checkOneSignature ed now ts payload s
      checkSignatures ed now ts payload rest

/-- Attestation loop of `verify_signatures`: the envelope must be present. -/
def checkAttestationSigs (ed : List Nat → List Nat → List Nat → Bool) (now : Nat)
    (ts : TrustStore) : List Attestation → Except VErr Unit
  | [] => .ok ()
  | a :: rest => do
      match a.envelope with
      | none => throw .missingEnvelope
      | some env => checkSignatures ed now ts env.payload env.signatures
      checkAttestationSigs ed now ts rest

/-- `verify_signatures` of verify.rs. -/
def verify_signatures (ed : List Nat → List Nat → List Nat → Bool) (now : Nat)
    (ab : AttestationBundle) (ts : TrustStore) : Except VErr Unit :=
  checkAttestationSigs ed now ts ab.attestations

/-- The recomputation loop of `verify_merkle_proof`: the running state is
`(current, index, size)`; `size` is updated but never read again, exactly
as in the source. -/
def merkleFold (current : List Nat) (index size : Nat) : List (List Nat) → List Nat
  | [] => current
  | sibling :: rest =>
      let next :=
        if index % 2 == 0 then sha256 (1 :: (current ++ sibling))
        else sha256 (1 :: (sibling ++ current))
      merkleFold next (index / 2) ((size + 1) / 2) rest

/-- Hex-decode every hash of the audit path, failing on the first bad one. -/
def decodeHashes : List String → Option (List (List Nat))
  | [] => some []
  | h :: rest => do
      let d ← decode_hex h
      let r ← decodeHashes rest
      pure (d :: r)

/-- `verify_merkle_proof` of verify.rs: bound check, hex decodes, non-empty
path, RFC 6962 recomputation, root comparison. -/
def verify_merkle_proof (proof : MerkleProof) : Except VErr Unit :=
  if proof.log_index ≥ proof.tree_size then
    .error (.merkleIndexOutOfRange proof.log_index proof.tree_size)
  else
    match decode_hex proof.root_hash with
    | none => .error .merkleBadHex
    | some expected_root =>
        match decodeHashes proof.hashes with
        | none => .error .merkleBadHex
        | some audit_path =>
            match audit_path with
            | [] => .error .merkleEmptyPath
            | leaf :: siblings =>
                if merkleFold leaf proof.log_index proof.tree_size siblings ≠ expected_root then
                  .error .merkleRootMismatch
                else .ok ()

/-- Big-endian integer value of a byte string. -/
def beU64 (bytes : List Nat) : Nat := bytes.foldl (fun acc b => acc * 256 + b) 0

/-- `verify_set_signature` of verify.rs.  `b64` is the base64 decoder of the
`base64` crate, as an oracle; `ed` as in `verify_ed25519_signature`. -/
def verify_set_signature (ed : List Nat → List Nat → List Nat → Bool)
    (b64 : String → Option (List Nat)) (now : Nat)
    (set_b64 : String) (log_key : TrustedKey) : Except VErr Unit :=
  match b64 set_b64 with
  | none => .error .setBadBase64
  | some set_bytes =>
      if set_bytes.length < 74 then .error (.setTooShort set_bytes.length)
      else
        let signature_start := set_bytes.length - 64
        let signed_data := set_bytes.take signature_start
        let signature_bytes := set_bytes.drop signature_start
        if log_key.key_bytes.length ≠ 32 then .error .setBadKeyLength
        else if ¬ ed log_key.key_bytes signed_data signature_bytes then .error .setSignatureInvalid
        else
          if set_bytes.length ≥ 10 then
            let timestamp_ms := beU64 ((set_bytes.drop 2).take 8)
            let timestamp_secs := timestamp_ms / 1000
            if timestamp_secs > now + 604800 then .error (.setFutureTimestamp timestamp_secs)
            else .ok ()
          else .ok ()

/-- One iteration of the log-entry loop of `verify_log_inclusion`: key
lookup, SET verification, then the optional Merkle proof (a missing proof
is only a warning). -/
def checkLogEntry (ed : List Nat → List Nat → List Nat → Bool)
    (b64 : String → Option (List Nat)) (now : Nat) (ts : TrustStore)
    (e : LogEntry) : Except VErr Unit := do
  match ts.get_key e.log_id with
  | none => throw (.logKeyUnknown e.log_id)
  | some log_key => do
      verify_set_signature ed b64 now e.signed_entry_timestamp log_key
      match e.inclusion_proof with
      | some proof => verify_merkle_proof proof
      | none => pure ()

/-- The log-entry loop of `verify_log_inclusion`. -/
def checkLogEntries (ed : List Nat → List Nat → List Nat → Bool)
    (b64 : String → Option (List Nat)) (now : Nat) (ts : TrustStore) :
    List LogEntry → Except VErr Unit
  | [] => .ok ()
  | e :: rest => do
      checkLogEntry ed b64 now ts e
      checkLogEntries ed b64 now ts rest

/-- Number of distinct `log_id`s among the log entries. -/
def distinctLogIds (ab : AttestationBundle) : Nat :=
  ((ab.log_entries.map (fun e => e.log_id)).dedup).length

/-- `verify_log_inclusion` of verify.rs: federation requirement, then the
per-entry checks. -/
def verify_log_inclusion (ed : List Nat → List Nat → List Nat → Bool)
    (b64 : String → Option (List Nat)) (now : Nat)
    (ab : AttestationBundle) (ts : TrustStore) : Except VErr Unit :=
  if distinctLogIds ab < 2 then .error (.insufficientLogCoverage (distinctLogIds ab))
  else checkLogEntries ed b64 now ts ab.log_entries

/-- Inner loop of `verify_threshold` over one envelope's signatures,
carrying `(count, seen)` exactly as the source's mutable pair. -/
def sigLoop (members : List String) : List DSSESignature → Nat → List String → Nat × List String
  | [], count, seen => (count, seen)
  | s :: rest, count, seen =>
      if members.contains s.keyid && !(seen.contains s.keyid) then
        sigLoop members rest (count + 1) (s.keyid :: seen)
      else
        sigLoop members rest count seen

/-- Outer loop of `verify_threshold` over the attestations; attestations
without an envelope contribute nothing. -/
def thresholdLoop (members : List String) : List Attestation → Nat → List String → Nat × List String
  | [], count, seen => (count, seen)
  | a :: rest, count, seen =>
      match a.envelope with
      | none => thresholdLoop members rest count seen
      | some env =>
          let p := sigLoop members env.signatures count seen
          thresholdLoop members rest p.1 p.2

/-- `verify_threshold` of verify.rs. -/
def verify_threshold (ab : AttestationBundle) (ts : TrustStore) : Except VErr Unit :=
  match ts.get_threshold_group "release-signers" with
  | none => .error .noThresholdGroup
  | some threshold_group =>
      let p := thresholdLoop threshold_group.member_keyids ab.attestations 0 []
      if p.1 < threshold_group.k then
        .error (.thresholdNotMet p.1 threshold_group.k threshold_group.n)
      else .ok ()

/-- A cache file: its content and its modification time (seconds). -/
structure CacheEntry where
  content : String
  mtime : Nat
deriving DecidableEq, Repr

/-- One line of the audit log. -/
structure AuditRecord where
  time : Nat
  bundle : String
  digest : String
  outcome : String
deriving DecidableEq, Repr

/-- The filesystem state the verifier touches: the cache directory (an
association list from file key to entry) and the audit log. -/
structure FsState where
  cache : List (String × CacheEntry)
  audit : List AuditRecord
deriving DecidableEq, Repr

/-- The cache key `"{image_digest}-{trust_store_version}"`. -/
def cacheKey (b : CtpBundle) (ts : TrustStore) : String :=
  b.image_digest ++ "-" ++ trust_store_version ts

/-- Look up a cache file by key. -/
def lookupCache (st : FsState) (key : String) : Option CacheEntry :=
  (st.cache.find? (fun p => p.1 == key)).map (fun p => p.2)

/-- Delete the cache file with the given key. -/
def removeCache (st : FsState) (key : String) : FsState :=
  { st with cache := st.cache.filter (fun p => p.1 != key) }

/-- Replace-style write of a cache file. -/
def writeCache (st : FsState) (key : String) (e : CacheEntry) : FsState :=
  { st with cache := (key, e) :: st.cache.filter (fun p => p.1 != key) }

/-- `check_cache` of verify.rs: a missing file is a miss; a file whose
mtime is in the future makes `duration_since` fail; a file older than 3600
seconds is deleted and is a miss; otherwise a hit.  The content is never
read. -/
def check_cache (now : Nat) (b : CtpBundle) (ts : TrustStore) (st : FsState) :
    Except VErr (Option Unit) × FsState :=
  let key := cacheKey b ts
  match lookupCache st key with
  | none => (.ok none, st)
  | some e =>
      if e.mtime > now then (.error .cacheTimeError, st)
      else if now - e.mtime > 3600 then (.ok none, removeCache st key)
      else (.ok (some ()), st)

/-- `cache_result` of verify.rs: failures are never cached; a success
writes the sentinel `VERIFIED` under the cache key. -/
def cache_result (now : Nat) (b : CtpBundle) (ts : TrustStore) (success : Bool)
    (st : FsState) : FsState :=
  if !success then st
  else writeCache st (cacheKey b ts) ⟨"VERIFIED", now⟩

/-- `record_verification_result` of verify.rs: append one record. -/
def record_verification_result (now : Nat) (b : CtpBundle) (outcome : String)
    (st : FsState) : FsState :=
  { st with audit := st.audit ++ [⟨now, b.name, b.image_digest, outcome⟩] }

/-- Steps 1-5 of `verify_bundle` (the five checks, in source order, with
the source's short-circuit on the first failure). -/
def run_checks (ed : List Nat → List Nat → List Nat → Bool)
    (b64 : String → Option (List Nat)) (now : Nat)
    (b : CtpBundle) (ts : TrustStore) : Except VErr Unit := do
  let ab ← parse_attestation_bundle b
  verify_subject_match b ab
  verify_signatures ed now ab ts
  verify_log_inclusion ed b64 now ab ts
  verify_threshold ab ts

/-- `verify_bundle` of verify.rs: cache consultation, the five checks, and
on success the cache write followed by the `ALLOW` audit record.  The
`mode` argument is carried exactly as in the source, which only logs it. -/
def verify_bundle (ed : List Nat → List Nat → List Nat → Bool)
    (b64 : String → Option (List Nat)) (now : Nat)
    (b : CtpBundle) (ts : TrustStore) (mode : VerificationMode)
    (st : FsState) : Except VErr Unit × FsState :=
  match check_cache now b ts st with
  | (.error e, st') => (.error e, st')
  | (.ok (some _), st') => (.ok (), st')
  | (.ok none, st') =>
      match run_checks ed b64 now b ts with
      | .error e => (.error e, st')
      | .ok _ =>
          (.ok (), record_verification_result now b "ALLOW" (cache_result now b ts true st'))

/-- `run` of main.rs, restricted to how the verification outcome is turned
into the caller-visible result: Strict propagates the failure, Permissive
and Audit swallow it. -/
def apply_mode (mode : VerificationMode) (r : Except VErr Unit) : Except VErr Unit :=
  match r with
  | .ok _ => .ok ()
  | .error e =>
      match mode with
      | .Strict => .error e
      | .Permissive => .ok ()
      | .Audit => .ok ()

end VCS

deriving instance DecidableEq for Except

namespace VCS

set_option maxRecDepth 40000

/-- The state after `check_cache` is the input state, or the input state
with the entry under the cache key deleted. -/
theorem check_cache_state (now : Nat) (b : CtpBundle) (ts : TrustStore) (st : FsState) :
    (check_cache now b ts st).2 = st ∨
    (check_cache now b ts st).2 = removeCache st (cacheKey b ts) := by
  unfold check_cache
  cases hl : lookupCache st (cacheKey b ts) with
  | none => exact Or.inl (by simp [hl])
  | some e =>
      by_cases h1 : e.mtime > now
      · exact Or.inl (by simp [hl, h1])
      · by_cases h2 : now - e.mtime > 3600
        · exact Or.inr (by simp [hl, h1, h2])
        · exact Or.inl (by simp [hl, h1, h2])

/-- `check_cache` never touches the audit log. -/
theorem check_cache_audit (now : Nat) (b : CtpBundle) (ts : TrustStore) (st : FsState) :
    (check_cache now b ts st).2.audit = st.audit := by
  rcases check_cache_state now b ts st with h | h <;> rw [h] <;> rfl

/-- `cache_result` never touches the audit log. -/
theorem cache_result_audit (now : Nat) (b : CtpBundle) (ts : TrustStore) (s : Bool)
    (st : FsState) : (cache_result now b ts s st).audit = st.audit := by
  unfold cache_result
  cases s <;> simp [writeCache]

/-- A find over a list from which all `key` entries were filtered out only
returns entries the unfiltered list holds. -/
theorem find_filter_subset (key k : String) :
    ∀ (l : List (String × CacheEntry)) (p : String × CacheEntry),
      (l.filter (fun q => q.1 != key)).find? (fun q => q.1 == k) = some p →
      l.find? (fun q => q.1 == k) = some p := by
  intro l
  induction l with
  | nil => intro p h; simpa using h
  | cons q rest ih =>
      intro p h
      rw [List.filter_cons] at h
      by_cases hq : (q.1 != key) = true
      · rw [if_pos hq] at h
        rw [List.find?_cons] at h ⊢
        cases hqk : (q.1 == k) with
        | true => rw [hqk] at h; exact h
        | false => rw [hqk] at h; exact ih p h
      · rw [if_neg hq] at h
        have hp_key : (p.1 != key) = true :=
          (List.mem_filter.mp (List.mem_of_find?_eq_some h)).2
        have hp_pred : (p.1 == k) = true := (List.find?_eq_some.mp h).1
        have hqk : (q.1 == k) = false := by
          simp only [bne_iff_ne, ne_eq, Decidable.not_not] at hq
          simp only [beq_iff_eq] at hp_pred
          simp only [bne_iff_ne, ne_eq] at hp_key
          simp only [beq_eq_false_iff_ne, ne_eq]
          rw [hq]
          exact fun hkk => hp_key (hp_pred.trans hkk.symm)
        rw [List.find?_cons, hqk]
        exact ih p h

/-- A cache lookup that succeeds after a delete succeeded, with the same
entry, before the delete. -/
theorem lookupCache_remove_subset (st : FsState) (key k : String) (v : CacheEntry)
    (h : lookupCache (removeCache st key) k = some v) : lookupCache st k = some v := by
  unfold lookupCache removeCache at *
  cases hf : (st.cache.filter (fun q => q.1 != key)).find? (fun q => q.1 == k) with
  | none => simp [hf] at h
  | some p =>
      rw [find_filter_subset key k st.cache p hf]
      simpa [hf] using h

/-- Deleting the entry under a key makes lookups of that key fail. -/
theorem lookupCache_remove_self (st : FsState) (key : String) :
    lookupCache (removeCache st key) key = none := by
  unfold lookupCache removeCache
  have : (st.cache.filter (fun q => q.1 != key)).find? (fun q => q.1 == key) = none := by
    rw [List.find?_eq_none]
    intro x hx
    have := (List.mem_filter.mp hx).2
    simp only [bne_iff_ne, ne_eq] at this
    simp [this]
  simp [this]

/-- C2: for every bundle, trust store, time and state, the result of
`verify_bundle` — both the pass/fail decision and the filesystem effects —
is identical for all three verification modes; the mode argument is never
consulted inside the pipeline. -/
theorem c2_mode_invariant (ed : List Nat → List Nat → List Nat → Bool)
    (b64 : String → Option (List Nat)) (now : Nat) (b : CtpBundle) (ts : TrustStore)
    (mode : VerificationMode) (st : FsState) :
    verify_bundle ed b64 now b ts mode st = verify_bundle ed b64 now b ts .Strict st := rfl

/-- C3 fails on the code: two trust stores whose single trusted key has the
same keyid but different `key_bytes` receive the same 8-hex-char
fingerprint, because `trust_store_version` hashes only keyids. -/
theorem c3_fingerprint_ignores_key_bytes :
    trust_store_version ⟨[⟨"key-1", List.replicate 32 0, "ed25519", none, none, "high"⟩], []⟩
      = trust_store_version ⟨[⟨"key-1", List.replicate 32 1, "ed25519", none, none, "high"⟩], []⟩
    ∧ (⟨"key-1", List.replicate 32 0, "ed25519", none, none, "high"⟩ : TrustedKey)
      ≠ ⟨"key-1", List.replicate 32 1, "ed25519", none, none, "high"⟩ :=
  ⟨rfl, by decide⟩

/-- C4 fails on the code: a DSSE signature whose keyid resolves to a
trusted key with algorithm `"rsa"` is verified anyway — `verify_signatures`
never reads the `algorithm` field, and there is no `UnsupportedAlgorithm`
failure site; with a signature the Ed25519 oracle accepts, the check
succeeds outright. -/
theorem c4_no_unsupported_algorithm_check :
    verify_signatures (fun _ _ _ => true) 0
      ⟨"application/vnd.verified-container.bundle+json", "1",
        [⟨[⟨⟨"aa"⟩⟩], "p", some ⟨"t", [], [⟨"rsa-key", List.replicate 64 0⟩]⟩⟩], []⟩
      ⟨[⟨"rsa-key", List.replicate 32 0, "rsa", none, none, "high"⟩], []⟩ = .ok () := by
  decide

/-- The `size` component of the Merkle recomputation state is dead: the
fold's result does not depend on it. -/
theorem merkleFold_size_irrelevant (sibs : List (List Nat)) :
    ∀ cur idx s1 s2, merkleFold cur idx s1 sibs = merkleFold cur idx s2 sibs := by
  induction sibs with
  | nil => intro cur idx s1 s2; rfl
  | cons sib rest ih =>
      intro cur idx s1 s2
      simp only [merkleFold]
      exact ih _ _ _ _

/-- C6: for a Merkle proof within bounds whose root and audit path decode
cleanly and whose path is non-empty, verification accepts exactly when the
RFC 6962 fold — leaf first, then `SHA-256(0x01 || current || sibling)` for
an even running index and `SHA-256(0x01 || sibling || current)` for an odd
one, halving the index each step — reproduces the decoded root. -/
theorem c6_merkle_accept_iff_fold (p : MerkleProof) (root leaf : List Nat)
    (siblings : List (List Nat))
    (hbound : p.log_index < p.tree_size)
    (hroot : decode_hex p.root_hash = some root)
    (hpath : decodeHashes p.hashes = some (leaf :: siblings)) :
    verify_merkle_proof p = .ok () ↔
      merkleFold leaf p.log_index p.tree_size siblings = root := by
  unfold verify_merkle_proof
  rw [if_neg (by omega), hroot, hpath]
  by_cases h : merkleFold leaf p.log_index p.tree_size siblings = root
  · simp [h]
  · simp [h]

/-- Witness for C6: a single-leaf tree (`tree_size = 1`, `log_index = 0`,
one-element audit path equal to the root) is accepted. -/
theorem c6_merkle_accept_iff_fold_witness :
    verify_merkle_proof ⟨0, "ab", 1, ["ab"]⟩ = .ok () :=
  (c6_merkle_accept_iff_fold ⟨0, "ab", 1, ["ab"]⟩ [171] [171] []
    (by decide) (by decide) (by decide)).mpr rfl

/-- C9: two Merkle proofs identical except in `tree_size`, both with
`log_index < tree_size`, verify identically — the tree size influences the
outcome only through the bound check. -/
theorem c9_tree_size_only_bounds (li : Nat) (rh : String) (hs : List String)
    (ts1 ts2 : Nat) (h1 : li < ts1) (h2 : li < ts2) :
    verify_merkle_proof ⟨li, rh, ts1, hs⟩ = verify_merkle_proof ⟨li, rh, ts2, hs⟩ := by
  unfold verify_merkle_proof
  rw [if_neg (by simpa using by omega), if_neg (by simpa using by omega)]
  cases decode_hex rh with
  | none => rfl
  | some root =>
      cases decodeHashes hs with
      | none => rfl
      | some path =>
          cases path with
          | nil => rfl
          | cons leaf sibs =>
              dsimp only
              rw [merkleFold_size_irrelevant sibs leaf li ts1 ts2]

/-- Witness for C9: the same proof with tree sizes 1 and 7 verifies
identically. -/
theorem c9_tree_size_only_bounds_witness :
    verify_merkle_proof ⟨0, "ab", 1, ["ab"]⟩ = verify_merkle_proof ⟨0, "ab", 7, ["ab"]⟩ :=
  c9_tree_size_only_bounds 0 "ab" ["ab"] 1 7 (by decide) (by decide)

/-- C10: a cache lookup hits exactly when a file under the cache key exists
with modification age at most 3600 seconds — its content is unconstrained,
hence never read — and a well-timestamped older file is deleted and
reported as a miss. -/
theorem c10_cache_hit_iff (now : Nat) (b : CtpBundle) (ts : TrustStore) (st : FsState) :
    ((check_cache now b ts st).1 = .ok (some ()) ↔
      ∃ e, lookupCache st (cacheKey b ts) = some e ∧ e.mtime ≤ now ∧ now - e.mtime ≤ 3600) ∧
    (∀ e, lookupCache st (cacheKey b ts) = some e → e.mtime ≤ now → 3600 < now - e.mtime →
      (check_cache now b ts st).1 = .ok none ∧
      lookupCache (check_cache now b ts st).2 (cacheKey b ts) = none) := by
  unfold check_cache
  cases hl : lookupCache st (cacheKey b ts) with
  | none =>
      simp only [hl]
      constructor
      · constructor
        · intro h; exact absurd h (by simp)
        · rintro ⟨e, he, -, -⟩; cases he
      · intro e he; cases he
  | some e =>
      simp only [hl]
      by_cases h1 : e.mtime > now
      · rw [if_pos h1]
        constructor
        · constructor
          · intro h; exact absurd h (by simp)
          · rintro ⟨e', he', hm, -⟩
            cases Option.some.inj he'
            exfalso; omega
        · intro e' he' hm hage
          cases Option.some.inj he'
          exfalso; omega
      · rw [if_neg h1]
        by_cases h2 : now - e.mtime > 3600
        · rw [if_pos h2]
          constructor
          · constructor
            · intro h; exact absurd h (by simp)
            · rintro ⟨e', he', -, hage⟩
              cases Option.some.inj he'
              exfalso; omega
          · intro e' he' hm hage
            exact ⟨rfl, lookupCache_remove_self st (cacheKey b ts)⟩
        · rw [if_neg h2]
          constructor
          · constructor
            · intro _; exact ⟨e, rfl, by omega, by omega⟩
            · intro _; rfl
          · intro e' he' hm hage
            cases Option.some.inj he'
            exfalso; omega

/-- Witness for C10: with one fresh entry under the key, the lookup is a
hit; the expiry branch is exercised through the deletion conjunct on an
aged entry. -/
theorem c10_cache_hit_iff_witness :
    (check_cache 10 ⟨"n", "1", "sha256:aa", .missing⟩ ⟨[], []⟩
      ⟨[("sha256:aa-e3b0c442", ⟨"VERIFIED", 4⟩)], []⟩).1 = .ok (some ()) :=
  (c10_cache_hit_iff 10 ⟨"n", "1", "sha256:aa", .missing⟩ ⟨[], []⟩
    ⟨[("sha256:aa-e3b0c442", ⟨"VERIFIED", 4⟩)], []⟩).1.mpr
    ⟨⟨"VERIFIED", 4⟩, by decide, by decide, by decide⟩

/-- Keyids appearing in the DSSE signatures of one attestation. -/
def attKeyids (a : Attestation) : List String :=
  match a.envelope with
  | none => []
  | some env => env.signatures.map (fun s => s.keyid)

/-- All keyids appearing in any DSSE signature of any attestation. -/
def allSigKeyids (ab : AttestationBundle) : List String :=
  (ab.attestations.map attKeyids).flatten

/-- Specification-level count for the threshold check: the number of
distinct keyids that appear in some DSSE signature of some attestation and
are members of the group. -/
def distinctMemberCount (ab : AttestationBundle) (g : ThresholdGroup) : Nat :=
  ((allSigKeyids ab).filter (fun k => g.member_keyids.contains k)).toFinset.card

/-- The threshold loops, re-expressed over the flat keyid sequence. -/
def keyLoop (members : List String) : List String → Nat → List String → Nat × List String
  | [], count, seen => (count, seen)
  | k :: rest, count, seen =>
      if members.contains k && !(seen.contains k) then
        keyLoop members rest (count + 1) (k :: seen)
      else keyLoop members rest count seen

/-- The signature loop only looks at keyids. -/
theorem sigLoop_eq_keyLoop (members : List String) (sigs : List DSSESignature) :
    ∀ count seen, sigLoop members sigs count seen
      = keyLoop members (sigs.map (fun s => s.keyid)) count seen := by
  induction sigs with
  | nil => intro count seen; rfl
  | cons s rest ih =>
      intro count seen
      simp only [sigLoop, List.map_cons, keyLoop]
      by_cases h : (members.contains s.keyid && !(seen.contains s.keyid)) = true
      · rw [if_pos h, if_pos h, ih]
      · rw [if_neg h, if_neg h, ih]

/-- `keyLoop` over an appended sequence runs the two halves in order. -/
theorem keyLoop_append (members : List String) (l1 l2 : List String) :
    ∀ count seen, keyLoop members (l1 ++ l2) count seen
      = keyLoop members l2 (keyLoop members l1 count seen).1 (keyLoop members l1 count seen).2 := by
  induction l1 with
  | nil => intro count seen; rfl
  | cons k rest ih =>
      intro count seen
      simp only [List.cons_append, keyLoop]
      by_cases h : (members.contains k && !(seen.contains k)) = true
      · rw [if_pos h, if_pos h]
        exact ih (count + 1) (k :: seen)
      · rw [if_neg h, if_neg h]
        exact ih count seen

/-- The attestation loop of `verify_threshold` equals `keyLoop` over the
flattened keyid sequence. -/
theorem thresholdLoop_eq_keyLoop (members : List String) (atts : List Attestation) :
    ∀ count seen, thresholdLoop members atts count seen
      = keyLoop members ((atts.map attKeyids).flatten) count seen := by
  induction atts with
  | nil => intro count seen; rfl
  | cons a rest ih =>
      intro count seen
      simp only [thresholdLoop, List.map_cons, List.flatten_cons]
      cases ha : a.envelope with
      | none =>
          dsimp only
          rw [ih]
          simp [attKeyids, ha]
      | some env =>
          dsimp only
          rw [sigLoop_eq_keyLoop, ih, keyLoop_append]
          simp [attKeyids, ha]

/-- `List.contains` agrees with membership for strings. -/
theorem contains_iff_mem (l : List String) (k : String) : l.contains k = true ↔ k ∈ l :=
  ⟨List.mem_of_elem_eq_true, List.elem_eq_true_of_mem⟩

/-- Invariant of `keyLoop`: the count grows by the length added to `seen`;
a duplicate-free `seen` stays duplicate-free; and the final `seen` holds
exactly the old `seen` plus the member keyids of the input. -/
theorem keyLoop_spec (members : List String) (ks : List String) :
    ∀ count seen,
      ((keyLoop members ks count seen).1 + seen.length
          = count + (keyLoop members ks count seen).2.length) ∧
      (seen.Nodup → (keyLoop members ks count seen).2.Nodup) ∧
      (∀ x, x ∈ (keyLoop members ks count seen).2 ↔
        x ∈ seen ∨ (x ∈ ks ∧ x ∈ members)) := by
  induction ks with
  | nil =>
      intro count seen
      exact ⟨by simp [keyLoop], fun h => h, fun x => by simp [keyLoop]⟩
  | cons k rest ih =>
      intro count seen
      by_cases h : (members.contains k && !(seen.contains k)) = true
      · have hk_m : k ∈ members :=
          (contains_iff_mem members k).mp ((Bool.and_eq_true _ _).mp h).1
        have hk_s : k ∉ seen := fun hmem => by
          have h2 := ((Bool.and_eq_true _ _).mp h).2
          rw [(contains_iff_mem seen k).mpr hmem] at h2
          simp at h2
        rw [keyLoop, if_pos h]
        obtain ⟨h1, h2, h3⟩ := ih (count + 1) (k :: seen)
        refine ⟨?_, fun hnd => h2 (List.nodup_cons.mpr ⟨hk_s, hnd⟩), ?_⟩
        · simp only [List.length_cons] at h1
          omega
        · intro x
          rw [h3 x]
          simp only [List.mem_cons]
          constructor
          · rintro ((rfl | hxs) | ⟨hxr, hxm⟩)
            · exact Or.inr ⟨Or.inl rfl, hk_m⟩
            · exact Or.inl hxs
            · exact Or.inr ⟨Or.inr hxr, hxm⟩
          · rintro (hxs | ⟨(rfl | hxr), hxm⟩)
            · exact Or.inl (Or.inr hxs)
            · exact Or.inl (Or.inl rfl)
            · exact Or.inr ⟨hxr, hxm⟩
      · have hkm : k ∉ members ∨ k ∈ seen := by
          by_cases hm : k ∈ members
          · by_cases hs : k ∈ seen
            · exact Or.inr hs
            · exfalso
              apply h
              rw [Bool.and_eq_true]
              refine ⟨(contains_iff_mem members k).mpr hm, ?_⟩
              have hc : seen.contains k = false := by
                cases hc : seen.contains k
                · rfl
                · exact absurd ((contains_iff_mem seen k).mp hc) hs
              rw [hc]
              rfl
          · exact Or.inl hm
        rw [keyLoop, if_neg h]
        obtain ⟨h1, h2, h3⟩ := ih count seen
        refine ⟨h1, h2, ?_⟩
        intro x
        rw [h3 x]
        constructor
        · rintro (hxs | ⟨hxr, hxm⟩)
          · exact Or.inl hxs
          · exact Or.inr ⟨List.mem_cons_of_mem k hxr, hxm⟩
        · rintro (hxs | ⟨hxk, hxm⟩)
          · exact Or.inl hxs
          · rcases List.mem_cons.mp hxk with rfl | hxr
            · rcases hkm with hnm | hks
              · exact absurd hxm hnm
              · exact Or.inl hks
            · exact Or.inr ⟨hxr, hxm⟩

/-- The count computed by the threshold loops equals the number of distinct
member keyids across all signatures. -/
theorem thresholdLoop_count (ab : AttestationBundle) (g : ThresholdGroup) :
    (thresholdLoop g.member_keyids ab.attestations 0 []).1 = distinctMemberCount ab g := by
  rw [thresholdLoop_eq_keyLoop]
  obtain ⟨h1, h2, h3⟩ :=
    keyLoop_spec g.member_keyids ((ab.attestations.map attKeyids).flatten) 0 []
  have hnodup := h2 List.nodup_nil
  have hlen : (keyLoop g.member_keyids ((ab.attestations.map attKeyids).flatten) 0 []).1
      = (keyLoop g.member_keyids ((ab.attestations.map attKeyids).flatten) 0 []).2.length := by
    simpa using h1
  rw [hlen, ← List.toFinset_card_of_nodup hnodup]
  unfold distinctMemberCount
  congr 1
  apply Finset.ext
  intro x
  simp only [List.mem_toFinset, List.mem_filter]
  rw [h3 x]
  simp [allSigKeyids, contains_iff_mem]

/-- C5: the threshold check passes exactly when the `release-signers`
group exists and the number of distinct member keyids appearing in some
DSSE signature of some attestation is at least `k`; a keyid is counted
once regardless of multiplicity, and an absent group fails the check. -/
theorem c5_threshold_iff (ab : AttestationBundle) (ts : TrustStore) :
    verify_threshold ab ts = .ok () ↔
      ∃ g, ts.get_threshold_group "release-signers" = some g ∧
        g.k ≤ distinctMemberCount ab g := by
  unfold verify_threshold
  cases hg : ts.get_threshold_group "release-signers" with
  | none =>
      constructor
      · intro h; exact absurd h (by simp)
      · rintro ⟨g, hgg, -⟩; exact Option.noConfusion hgg
  | some g =>
      dsimp only
      constructor
      · intro h
        refine ⟨g, rfl, ?_⟩
        by_cases hlt : (thresholdLoop g.member_keyids ab.attestations 0 []).1 < g.k
        · rw [if_pos hlt] at h
          exact absurd h (by simp)
        · rw [← thresholdLoop_count ab g]
          omega
      · rintro ⟨g', hg', hk⟩
        cases Option.some.inj hg'
        rw [if_neg]
        rw [thresholdLoop_count ab g]
        omega

/-- Witness for C5: one attestation signed by the single member of a
`1`-of-`3` group passes the threshold check. -/
theorem c5_threshold_iff_witness :
    verify_threshold
      ⟨"application/vnd.verified-container.bundle+json", "1",
        [⟨[⟨⟨"aa"⟩⟩], "p", some ⟨"t", [], [⟨"k1", []⟩]⟩⟩], []⟩
      ⟨[], [⟨"release-signers", 1, 3, ["k1"]⟩]⟩ = .ok () :=
  (c5_threshold_iff
      ⟨"application/vnd.verified-container.bundle+json", "1",
        [⟨[⟨⟨"aa"⟩⟩], "p", some ⟨"t", [], [⟨"k1", []⟩]⟩⟩], []⟩
      ⟨[], [⟨"release-signers", 1, 3, ["k1"]⟩]⟩).mpr
    ⟨⟨"release-signers", 1, 3, ["k1"]⟩, by decide, by decide⟩

/-- Exhaustive case analysis of `verify_bundle`: a cache error, a cache
hit, a check failure after a miss, or full success with the cache write and
the `ALLOW` audit record. -/
theorem verify_bundle_cases (ed : List Nat → List Nat → List Nat → Bool)
    (b64 : String → Option (List Nat)) (now : Nat) (b : CtpBundle) (ts : TrustStore)
    (mode : VerificationMode) (st : FsState) :
    (∃ e, (check_cache now b ts st).1 = .error e ∧
        verify_bundle ed b64 now b ts mode st = (.error e, (check_cache now b ts st).2)) ∨
    ((check_cache now b ts st).1 = .ok (some ()) ∧
        verify_bundle ed b64 now b ts mode st = (.ok (), (check_cache now b ts st).2)) ∨
    ((check_cache now b ts st).1 = .ok none ∧
      ((∃ e, run_checks ed b64 now b ts = .error e ∧
          verify_bundle ed b64 now b ts mode st = (.error e, (check_cache now b ts st).2)) ∨
       (run_checks ed b64 now b ts = .ok () ∧
          verify_bundle ed b64 now b ts mode st =
            (.ok (), record_verification_result now b "ALLOW"
              (cache_result now b ts true (check_cache now b ts st).2))))) := by
  unfold verify_bundle
  rcases hc : check_cache now b ts st with ⟨r, st2⟩
  dsimp only
  cases r with
  | error e => exact Or.inl ⟨e, rfl, rfl⟩
  | ok o =>
      cases o with
      | none =>
          refine Or.inr (Or.inr ⟨rfl, ?_⟩)
          cases hrc : run_checks ed b64 now b ts with
          | error e => exact Or.inl ⟨e, rfl, rfl⟩
          | ok u => cases u; exact Or.inr ⟨rfl, rfl⟩
      | some u => cases u; exact Or.inr (Or.inl ⟨rfl, rfl⟩)

/-- C1 fails on the code: a verification attempt that is rejected (here the
first check fails, on a cache miss) appends no audit record at all — the
audit log stays empty rather than receiving one REJECT record. -/
theorem c1_reject_writes_no_audit :
    (verify_bundle (fun _ _ _ => true) (fun _ => some (List.replicate 74 0)) 0
        ⟨"nginx", "1.26", "sha256:aa", .missing⟩ ⟨[], []⟩ .Strict ⟨[], []⟩).1
      = .error .missingAttestation ∧
    (verify_bundle (fun _ _ _ => true) (fun _ => some (List.replicate 74 0)) 0
        ⟨"nginx", "1.26", "sha256:aa", .missing⟩ ⟨[], []⟩ .Strict ⟨[], []⟩).2.audit
      = [] :=
  ⟨by decide, by decide⟩

/-- C1, amended: a successful cache-miss verification appends exactly one
`ALLOW` audit record; a verification that ends in a failure appends no
audit record. -/
theorem c1_audit_discipline (ed : List Nat → List Nat → List Nat → Bool)
    (b64 : String → Option (List Nat)) (now : Nat) (b : CtpBundle) (ts : TrustStore)
    (mode : VerificationMode) (st : FsState) :
    (∀ e, (verify_bundle ed b64 now b ts mode st).1 = .error e →
      (verify_bundle ed b64 now b ts mode st).2.audit = st.audit) ∧
    ((verify_bundle ed b64 now b ts mode st).1 = .ok () →
      (check_cache now b ts st).1 = .ok none →
      (verify_bundle ed b64 now b ts mode st).2.audit
        = st.audit ++ [⟨now, b.name, b.image_digest, "ALLOW"⟩]) := by
  rcases verify_bundle_cases ed b64 now b ts mode st with
    ⟨e, hcc, hvb⟩ | ⟨hcc, hvb⟩ | ⟨hcc, (⟨e, hrc, hvb⟩ | ⟨hrc, hvb⟩)⟩
  · constructor
    · intro e' _
      rw [hvb]
      exact check_cache_audit now b ts st
    · intro hok _
      rw [hvb] at hok
      exact absurd hok (by simp)
  · constructor
    · intro e' he'
      rw [hvb] at he'
      exact absurd he' (by simp)
    · intro _ hmiss
      rw [hcc] at hmiss
      exact absurd hmiss (by simp)
  · constructor
    · intro e' _
      rw [hvb]
      exact check_cache_audit now b ts st
    · intro hok _
      rw [hvb] at hok
      exact absurd hok (by simp)
  · constructor
    · intro e' he'
      rw [hvb] at he'
      exact absurd he' (by simp)
    · intro _ _
      rw [hvb]
      show (record_verification_result now b "ALLOW"
        (cache_result now b ts true (check_cache now b ts st).2)).audit = _
      unfold record_verification_result
      dsimp only
      rw [cache_result_audit, check_cache_audit]

/-- Witness for C1 (amended): a fully successful run starting from an empty
filesystem state ends with exactly the one `ALLOW` record. -/
theorem c1_audit_discipline_witness :
    (verify_bundle (fun _ _ _ => true) (fun _ => some (List.replicate 74 0)) 0
        ⟨"nginx", "1.26", "sha256:aa",
          .parsed ⟨"application/vnd.verified-container.bundle+json", "1",
            [⟨[⟨⟨"aa"⟩⟩], "p", some ⟨"t", [], [⟨"k1", List.replicate 64 0⟩]⟩⟩],
            [⟨"l1", "x", none⟩, ⟨"l2", "x", none⟩]⟩⟩
        ⟨[⟨"k1", List.replicate 32 0, "ed25519", none, none, "high"⟩,
          ⟨"l1", List.replicate 32 0, "ed25519", none, none, "high"⟩,
          ⟨"l2", List.replicate 32 0, "ed25519", none, none, "high"⟩],
         [⟨"release-signers", 1, 3, ["k1"]⟩]⟩
        .Strict ⟨[], []⟩).2.audit
      = (⟨[], []⟩ : FsState).audit ++ [⟨0, "nginx", "sha256:aa", "ALLOW"⟩] :=
  (c1_audit_discipline (fun _ _ _ => true) (fun _ => some (List.replicate 74 0)) 0
      ⟨"nginx", "1.26", "sha256:aa",
        .parsed ⟨"application/vnd.verified-container.bundle+json", "1",
          [⟨[⟨⟨"aa"⟩⟩], "p", some ⟨"t", [], [⟨"k1", List.replicate 64 0⟩]⟩⟩],
          [⟨"l1", "x", none⟩, ⟨"l2", "x", none⟩]⟩⟩
      ⟨[⟨"k1", List.replicate 32 0, "ed25519", none, none, "high"⟩,
        ⟨"l1", List.replicate 32 0, "ed25519", none, none, "high"⟩,
        ⟨"l2", List.replicate 32 0, "ed25519", none, none, "high"⟩],
       [⟨"release-signers", 1, 3, ["k1"]⟩]⟩
      .Strict ⟨[], []⟩).2 (by decide) (by decide)

/-- C7: when any check fails, no cache file is created or modified — every
cache entry present after the run was already present, unchanged, before
it (the run may at most delete an expired entry), so a rejected bundle is
re-evaluated on the next attempt. -/
theorem c7_failure_never_cached (ed : List Nat → List Nat → List Nat → Bool)
    (b64 : String → Option (List Nat)) (now : Nat) (b : CtpBundle) (ts : TrustStore)
    (mode : VerificationMode) (st : FsState) (e : VErr)
    (hfail : (verify_bundle ed b64 now b ts mode st).1 = .error e) :
    ∀ k v, lookupCache (verify_bundle ed b64 now b ts mode st).2 k = some v →
      lookupCache st k = some v := by
  intro k v hl
  rcases verify_bundle_cases ed b64 now b ts mode st with
    ⟨e', hcc, hvb⟩ | ⟨hcc, hvb⟩ | ⟨hcc, (⟨e', hrc, hvb⟩ | ⟨hrc, hvb⟩)⟩
  · rw [hvb] at hl
    rcases check_cache_state now b ts st with hs | hs
    · rw [hs] at hl
      exact hl
    · rw [hs] at hl
      exact lookupCache_remove_subset st (cacheKey b ts) k v hl
  · rw [hvb] at hfail
    exact absurd hfail (by simp)
  · rw [hvb] at hl
    rcases check_cache_state now b ts st with hs | hs
    · rw [hs] at hl
      exact hl
    · rw [hs] at hl
      exact lookupCache_remove_subset st (cacheKey b ts) k v hl
  · rw [hvb] at hfail
    exact absurd hfail (by simp)

/-- Witness for C7: a rejected run leaves the one pre-existing (unrelated)
cache entry in place — the entry found in the post-state is recovered in
the pre-state through the theorem. -/
theorem c7_failure_never_cached_witness :
    lookupCache ⟨[("other", ⟨"VERIFIED", 0⟩)], []⟩ "other" = some ⟨"VERIFIED", 0⟩ :=
  c7_failure_never_cached (fun _ _ _ => true) (fun _ => some (List.replicate 74 0)) 0
    ⟨"nginx", "1.26", "sha256:aa", .missing⟩ ⟨[], []⟩ .Strict
    ⟨[("other", ⟨"VERIFIED", 0⟩)], []⟩ .missingAttestation (by decide)
    "other" ⟨"VERIFIED", 0⟩ (by decide)

/-- With an empty attestations array (and the bundle parsed), steps 2-3
pass vacuously and step 5 (threshold) fails whenever the release-signers
group, if present, requires at least one signature — so the five checks
can never all pass. -/
theorem run_checks_empty_attestations (ed : List Nat → List Nat → List Nat → Bool)
    (b64 : String → Option (List Nat)) (now : Nat) (b : CtpBundle) (ts : TrustStore)
    (ab : AttestationBundle)
    (hab : b.attestation_file = .parsed ab)
    (hempty : ab.attestations = [])
    (hk : ∀ g, ts.get_threshold_group "release-signers" = some g → 1 ≤ g.k) :
    run_checks ed b64 now b ts ≠ .ok () := by
  unfold run_checks parse_attestation_bundle
  rw [hab]
  dsimp only
  by_cases hm : ab.media_type ≠ "application/vnd.verified-container.bundle+json"
  · rw [if_pos hm]
    intro h
    exact absurd h (by simp [bind, Except.bind])
  · rw [if_neg hm]
    dsimp only [bind, Except.bind]
    unfold verify_subject_match verify_signatures
    rw [hempty]
    dsimp only [checkAttSubjects, checkAttestationSigs, bind, Except.bind]
    cases hli : verify_log_inclusion ed b64 now ab ts with
    | error e => intro h; exact absurd h (by simp [bind, Except.bind])
    | ok u =>
        cases u
        dsimp only [bind, Except.bind]
        unfold verify_threshold
        cases hg : ts.get_threshold_group "release-signers" with
        | none => intro h; exact absurd h (by simp)
        | some g =>
            dsimp only
            rw [hempty]
            dsimp only [thresholdLoop]
            rw [if_pos (by have := hk g hg; omega)]
            intro h
            exact absurd h (by simp)

/-- C8: a bundle whose parsed attestations array is empty never verifies on
a cache non-hit, provided the release-signers group (when present) has
`k ≥ 1`. -/
theorem c8_empty_attestations_rejected (ed : List Nat → List Nat → List Nat → Bool)
    (b64 : String → Option (List Nat)) (now : Nat) (b : CtpBundle) (ts : TrustStore)
    (mode : VerificationMode) (st : FsState) (ab : AttestationBundle)
    (hab : b.attestation_file = .parsed ab)
    (hempty : ab.attestations = [])
    (hk : ∀ g, ts.get_threshold_group "release-signers" = some g → 1 ≤ g.k)
    (hmiss : (check_cache now b ts st).1 ≠ .ok (some ())) :
    (verify_bundle ed b64 now b ts mode st).1 ≠ .ok () := by
  rcases verify_bundle_cases ed b64 now b ts mode st with
    ⟨e, hcc, hvb⟩ | ⟨hcc, hvb⟩ | ⟨hcc, (⟨e, hrc, hvb⟩ | ⟨hrc, hvb⟩)⟩
  · rw [hvb]
    simp
  · exact absurd hcc hmiss
  · rw [hvb]
    simp
  · exact absurd hrc (run_checks_empty_attestations ed b64 now b ts ab hab hempty hk)

/-- Witness for C8: a parsed bundle with no attestations is rejected even
though every key and both logs are trusted and a 1-of-1 group exists. -/
theorem c8_empty_attestations_rejected_witness :
    (verify_bundle (fun _ _ _ => true) (fun _ => some (List.replicate 74 0)) 0
        ⟨"nginx", "1.26", "sha256:aa",
          .parsed ⟨"application/vnd.verified-container.bundle+json", "1", [],
            [⟨"l1", "x", none⟩, ⟨"l2", "x", none⟩]⟩⟩
        ⟨[⟨"l1", List.replicate 32 0, "ed25519", none, none, "high"⟩,
          ⟨"l2", List.replicate 32 0, "ed25519", none, none, "high"⟩],
         [⟨"release-signers", 1, 1, ["k1"]⟩]⟩
        .Strict ⟨[], []⟩).1 ≠ .ok () :=
  c8_empty_attestations_rejected (fun _ _ _ => true) (fun _ => some (List.replicate 74 0)) 0
    ⟨"nginx", "1.26", "sha256:aa",
      .parsed ⟨"application/vnd.verified-container.bundle+json", "1", [],
        [⟨"l1", "x", none⟩, ⟨"l2", "x", none⟩]⟩⟩
    ⟨[⟨"l1", List.replicate 32 0, "ed25519", none, none, "high"⟩,
      ⟨"l2", List.replicate 32 0, "ed25519", none, none, "high"⟩],
     [⟨"release-signers", 1, 1, ["k1"]⟩]⟩
    .Strict ⟨[], []⟩
    ⟨"application/vnd.verified-container.bundle+json", "1", [],
      [⟨"l1", "x", none⟩, ⟨"l2", "x", none⟩]⟩
    rfl rfl
    (fun g hg => by cases Option.some.inj hg; decide)
    (by decide)

end VCS
